import Mathlib

/-
Verification of the normalizing-flow distribution layers and the Bayesian
estimator of the NormalizingFlowNetwork repository.

The tensor-library objects are shallowly embedded:
  - a parameter tensor is a list of reals (only its trailing dimension
    matters for the claims under study; slicing t[..., a:b] becomes
    dropping a elements and taking b - a);
  - a bijector is the pair of its flow type and its parameter slice;
  - the flow registry FLOWS (external module normalizing_flows, not part of
    the sources) is abstracted by a per-flow parameter-size function
    ps : flow type -> dims -> Nat, matching FLOWS[ft].get_param_size(n_dims);
  - a Python assertion failure at chain-build time is the error value
    paramSizeMismatch that the design document names for it.
-/

/-- Error raised when the parameter tensor fed to the chain builder does not
have the required trailing size (the failing assert in
InverseNormalizingFlowLayer._get_bijector, named by the design document). -/
inductive BuildError
  | paramSizeMismatch
deriving DecidableEq

/-- Trailing-dimension sliceT t[..., b : b + size] of a parameter tensor. -/
def sliceT (t : List ℝ) (b : Nat) (size : Nat) : List ℝ :=
  (t.drop b).take size

/-- A constructed bijector: the flow family it belongs to together with the
parameter slice it was given (FLOWS[flow_type](t_slice, n_dims)). -/
structure Bij (α : Type) where
  flow_type : α
  params : List ℝ

/-- Exclusive prefix sums of the per-flow parameter sizes, mirroring
split_beginnings = [sum(param_sizes[0:i]) for i in range(len(param_sizes))]
in InverseNormalizingFlowLayer._get_bijector. -/
def split_beginnings (param_sizes : List Nat) : List Nat :=
  (List.range param_sizes.length).map (fun i => (param_sizes.take i).sum)

/-- Embedding of InverseNormalizingFlowLayer._get_bijector: reverse the flow
list, compute per-flow sizes and exclusive prefix-sum offsets, check the
total against the trailing dimension of t, and build one bijector per flow
from its slice, in reversed order. -/
def get_bijector {α : Type} (ps : α → Nat → Nat) (t : List ℝ)
    (flow_types0 : List α) (n_dims : Nat) : Except BuildError (List (Bij α)) :=
  let flow_types := flow_types0.reverse
  let param_sizes := flow_types.map (fun f => ps f n_dims)
  if param_sizes.sum = t.length then
    Except.ok (((split_beginnings param_sizes).zip (param_sizes.zip flow_types)).map
      (fun x => { flow_type := x.2.2, params := sliceT t x.1 x.2.1 }))
  else
    Except.error BuildError.paramSizeMismatch

/-- Reference form of the chain built by get_bijector: walk a flow list
carrying the running offset, giving each flow the slice starting at the
current offset with its own registered size. -/
def mkChain {α : Type} (ps : α → Nat → Nat) (n_dims : Nat) (t : List ℝ) :
    List α → Nat → List (Bij α)
  | [], _ => []
  | f :: rest, off =>
      { flow_type := f, params := sliceT t off (ps f n_dims) } ::
        mkChain ps n_dims t rest (off + ps f n_dims)

/-- Modelled from the spec: forward evaluation of a bijector chain
(tfp.bijectors.Chain is external to the sources). Composition semantics
apply the last-listed transform first to the base sample, so the fold runs
from the right. F abstracts the forward map of a constructed flow. -/
def chainForward {α X : Type} (F : α → List ℝ → X → X)
    (chain : List (Bij α)) (x : X) : X :=
  chain.foldr (fun b v => F b.flow_type b.params v) x

/-- Application of the flows in the original user-specified order, each flow
taking the slice whose offset is the total size of the flows listed after
it. This is the order the design document says samples flow through. -/
def applyFlows {α X : Type} (F : α → List ℝ → X → X) (ps : α → Nat → Nat)
    (n_dims : Nat) (t : List ℝ) : List α → X → X
  | [], x => x
  | f :: rest, x =>
      applyFlows F ps n_dims t rest
        (F f (sliceT t ((rest.map (fun g => ps g n_dims)).sum) (ps f n_dims)) x)

/-- Embedding of InverseNormalizingFlowLayer.get_total_param_size: per-flow
sizes summed, plus 2 * n_dims for the base distribution when it is
trainable. -/
def get_total_param_size {α : Type} (ps : α → Nat → Nat) (flow_types : List α)
    (n_dims : Nat) (trainable_base_dist : Bool) : Nat :=
  (flow_types.map (fun f => ps f n_dims)).sum +
    (if trainable_base_dist then 2 * n_dims else 0)

/-- Softplus as used by tf.math.softplus and tf.nn.softplus. -/
noncomputable def softplus (x : ℝ) : ℝ :=
  Real.log (1 + Real.exp x)

/-- A diagonal multivariate normal, kept as its location vector and diagonal
scale vector (tfd.MultivariateNormalDiag). -/
structure MVNDiag where
  loc : List ℝ
  scale_diag : List ℝ

/-- Embedding of InverseNormalizingFlowLayer._get_base_dist. Trainable case:
loc is t[..., 0:n_dims] and the diagonal scale is softplus(0.05 * raw) on
t[..., n_dims:2*n_dims]. Non-trainable case: loc is zeros with the shape of
t[..., 0:1] and the scale defaults to ones of that same shape. -/
noncomputable def get_base_dist (t : List ℝ) (n_dims : Nat) (trainable : Bool) :
    MVNDiag :=
  if trainable then
    { loc := sliceT t 0 n_dims,
      scale_diag := (sliceT t n_dims n_dims).map (fun r => softplus (0.05 * r)) }
  else
    { loc := (sliceT t 0 1).map (fun _ => 0),
      scale_diag := (sliceT t 0 1).map (fun _ => 1) }

/-- A base distribution pushed through a bijector chain
(tfd.TransformedDistribution). -/
structure TransformedDist (α : Type) where
  distribution : MVNDiag
  bijector : List (Bij α)

/-- Embedding of the make_flow_dist closure in
InverseNormalizingFlowLayer.__init__: the base distribution reads the
leading 2 * n_dims entries when trainable, and the chain is built from the
remaining entries (the whole tensor otherwise). -/
noncomputable def make_flow_dist {α : Type} (ps : α → Nat → Nat)
    (flow_types : List α) (n_dims : Nat) (trainable_base_dist : Bool)
    (t : List ℝ) : Except BuildError (TransformedDist α) :=
  match get_bijector ps (if trainable_base_dist then t.drop (2 * n_dims) else t)
      flow_types n_dims with
  | Except.ok chain =>
      Except.ok { distribution := get_base_dist t n_dims trainable_base_dist,
                  bijector := chain }
  | Except.error e => Except.error e

/-- A batch of independent one-dimensional normals (tfd.Independent over
tfd.Normal), kept as the per-dimension locations and scales; a scalar
broadcast scale is expanded to one entry per location. -/
structure IndepNormal where
  loc : List ℝ
  scale : List ℝ

/-- Embedding of MeanFieldLayer._get_distribution_fn. Uniform scale: loc is
t[..., 0:n_dims] with every scale fixed at 1.0. Otherwise the scales come
from t[..., n_dims:2*n_dims] through 1e-5 + softplus(log(expm1(1.0)) + raw). -/
noncomputable def mean_field_dist_fn (n_dims : Nat) (uniform_scale : Bool)
    (t : List ℝ) : IndepNormal :=
  if uniform_scale then
    { loc := sliceT t 0 n_dims,
      scale := (sliceT t 0 n_dims).map (fun _ => 1) }
  else
    { loc := sliceT t 0 n_dims,
      scale := (sliceT t n_dims n_dims).map
        (fun r => 1e-5 + softplus (Real.log (Real.exp 1 - 1) + r)) }

/-- Embedding of MeanFieldLayer.get_total_param_size. -/
def mean_field_total_param_size (n_dims : Nat) (uniform_scale : Bool) : Nat :=
  if uniform_scale then n_dims else 2 * n_dims

/-
Bayesian estimator (src/BayesianNFEstimator.py). The construction-time
behaviour is embedded together with Python call semantics where the claims
depend on them: keyword arguments are checked against the parameter names a
constructor accepts, and a failing assert surfaces as assertionError.
-/

/-- Python-level errors surfaced by the embedded construction paths. -/
inductive PyError
  | typeErrorUnexpectedKeyword (kw : String)
  | assertionError
deriving DecidableEq

/-- A Python value as far as the modelled keyword arguments need: None or a
number. -/
inductive PyVal
  | pyNone
  | pyNum (q : ℚ)
deriving DecidableEq

/-- The layer object built by MeanFieldLayer.__init__ as far as the claims
need it: its dimension and its uniform-scale flag. -/
structure MeanFieldLayer where
  n_dims : Nat
  uniform_scale : Bool
deriving DecidableEq

/-- Keyword parameter names accepted by MeanFieldLayer.__init__ after the
positional n_dims: uniform_scale and dtype, with defaults. -/
def meanFieldLayerKwargNames : List String :=
  ["uniform_scale", "dtype"]

/-- Python call semantics for MeanFieldLayer(n_dims, **kwargs): a keyword
absent from the accepted parameter names raises TypeError (unexpected
keyword argument). The modelled call sites pass no uniform_scale keyword, so
a successful call keeps its default value False. -/
def callMeanFieldLayer (n_dims : Nat) (kwargs : List (String × PyVal)) :
    Except PyError MeanFieldLayer :=
  match kwargs.find? (fun kv => !(meanFieldLayerKwargNames.contains kv.1)) with
  | some kv => Except.error (PyError.typeErrorUnexpectedKeyword kv.1)
  | none => Except.ok { n_dims := n_dims, uniform_scale := false }

/-- The two-layer Sequential a posterior or prior factory is meant to
return: a VariableLayer feeding a MeanFieldLayer. -/
structure SequentialModel where
  variable_layer_size : Nat
  variable_layer_trainable : Bool
  dist_layer : MeanFieldLayer
deriving DecidableEq

/-- Embedding of the prior_fn closure in BayesianNFEstimator._get_prior_fn:
a VariableLayer of shape size (zero-initialized, trainable iff the
trainable-prior flag) followed by the call
MeanFieldLayer(size, scale=1.0, dtype=dtype). -/
def prior_fn (trainable : Bool) (kernel_size : Nat) (bias_size : Nat) :
    Except PyError SequentialModel :=
  let size := kernel_size + bias_size
  match callMeanFieldLayer size [("scale", PyVal.pyNum 1), ("dtype", PyVal.pyNone)] with
  | Except.ok layer =>
      Except.ok { variable_layer_size := size,
                  variable_layer_trainable := trainable,
                  dist_layer := layer }
  | Except.error e => Except.error e

/-- Embedding of the posterior_fn closure in
BayesianNFEstimator._get_posterior_fn: a VariableLayer of shape 2 * size
(normal-initialized, trainable) followed by the call
MeanFieldLayer(size, scale=None, dtype=dtype). -/
def posterior_fn (kernel_size : Nat) (bias_size : Nat) :
    Except PyError SequentialModel :=
  let size := kernel_size + bias_size
  match callMeanFieldLayer size [("scale", PyVal.pyNone), ("dtype", PyVal.pyNone)] with
  | Except.ok layer =>
      Except.ok { variable_layer_size := 2 * size,
                  variable_layer_trainable := true,
                  dist_layer := layer }
  | Except.error e => Except.error e

/-- Modelled from the spec: the Keras GaussianNoise layer (external to the
sources) adds zero-mean Gaussian noise with the configured stddev during
training and is the identity at inference; the fresh draw is passed
explicitly. -/
def gaussianNoiseLayer (stddev : ℝ) (training : Bool) (noise : List ℝ)
    (y : List ℝ) : List ℝ :=
  if training then List.zipWith (fun yi ni => yi + stddev * ni) y noise else y

/-- Embedding of BayesianNFEstimator._get_neg_log_likelihood: when
y_noise_std is truthy the target runs through a GaussianNoise layer before
the log-probability; otherwise the loss reads the target directly. The
predicted distribution is abstracted by its log_prob function, and the
training flag and noise draw are passed explicitly. -/
def get_neg_log_likelihood (y_noise_std : ℚ) (log_prob : List ℝ → ℝ)
    (training : Bool) (noise : List ℝ) (y : List ℝ) : ℝ :=
  if y_noise_std ≠ 0 then
    -(log_prob (gaussianNoiseLayer (y_noise_std : ℝ) training noise y))
  else
    -(log_prob y)

/-- Embedding of the asserts at the top of
BayesianNFEstimator._get_dense_layers, in source order: hidden_sizes must be
a tuple, kl_weight_scale at most 1.0, x_noise_std nonnegative. -/
def get_dense_layers_checks (hidden_sizes_is_tuple : Bool)
    (kl_weight_scale : ℚ) (x_noise_std : ℚ) : Except PyError Unit :=
  if hidden_sizes_is_tuple = false then Except.error PyError.assertionError
  else if 1 < kl_weight_scale then Except.error PyError.assertionError
  else if x_noise_std < 0 then Except.error PyError.assertionError
  else Except.ok ()

/-- The validation performed during BayesianNFEstimator.__init__: the dense
layers are built (running the asserts above); y_noise_std is only tested for
truthiness when the loss closure is created and is never validated. -/
def bayesianNFEstimator_initChecks (hidden_sizes_is_tuple : Bool)
    (kl_weight_scale : ℚ) (x_noise_std : ℚ) (y_noise_std : ℚ) :
    Except PyError Unit :=
  get_dense_layers_checks hidden_sizes_is_tuple kl_weight_scale x_noise_std

/-
Helper lemmas shared by the claim theorems.
-/

/-- Unfolding of split_beginnings on a cons cell: a zero offset followed by
the tail offsets shifted by the head size. -/
theorem split_beginnings_cons (s : Nat) (ss : List Nat) :
    split_beginnings (s :: ss)
      = 0 :: (split_beginnings ss).map (fun b => s + b) := by
  unfold split_beginnings
  rw [List.length_cons, List.range_succ_eq_map, List.map_cons, List.map_map,
    List.map_map]
  refine congrArg₂ _ rfl (List.map_congr_left ?_)
  intro i _
  simp [Function.comp, List.take_succ_cons]

/-- The zip-with-offsets comprehension inside get_bijector equals the
running-offset chain mkChain, for any starting offset. -/
theorem zipChain_eq_mkChain {α : Type} (ps : α → Nat → Nat) (n_dims : Nat)
    (t : List ℝ) (l : List α) : ∀ off : Nat,
    (((split_beginnings (l.map (fun f => ps f n_dims))).map (fun b => off + b)).zip
        ((l.map (fun f => ps f n_dims)).zip l)).map
      (fun x => ({ flow_type := x.2.2, params := sliceT t x.1 x.2.1 } : Bij α))
      = mkChain ps n_dims t l off := by
  induction l with
  | nil => intro off; rfl
  | cons f rest ih =>
      intro off
      simp only [List.map_cons, split_beginnings_cons, List.map_map,
        List.zip_cons_cons, mkChain]
      refine congrArg₂ _ ?_ ?_
      · simp
      · have hcomp : ((fun b => off + b) ∘ (fun b => ps f n_dims + b))
            = (fun b => (off + ps f n_dims) + b) := by
          funext b
          simp [Function.comp, Nat.add_assoc]
        rw [hcomp]
        exact ih (off + ps f n_dims)

/-- When the trailing size matches, get_bijector returns the running-offset
chain over the reversed flow list. -/
theorem get_bijector_ok {α : Type} (ps : α → Nat → Nat) (t : List ℝ)
    (fts : List α) (n_dims : Nat)
    (h : (fts.map (fun f => ps f n_dims)).sum = t.length) :
    get_bijector ps t fts n_dims
      = Except.ok (mkChain ps n_dims t fts.reverse 0) := by
  have hrev : (fts.reverse.map (fun f => ps f n_dims)).sum = t.length := by
    rw [List.map_reverse, List.sum_reverse]
    exact h
  have hmap : (split_beginnings (fts.reverse.map (fun f => ps f n_dims))).map
      (fun b => 0 + b) = split_beginnings (fts.reverse.map (fun f => ps f n_dims)) := by
    simp
  unfold get_bijector
  rw [if_pos hrev]
  rw [← zipChain_eq_mkChain ps n_dims t fts.reverse 0, hmap]

/-- When the trailing size does not match, get_bijector fails with the
parameter-size mismatch error. -/
theorem get_bijector_error {α : Type} (ps : α → Nat → Nat) (t : List ℝ)
    (fts : List α) (n_dims : Nat)
    (h : (fts.map (fun f => ps f n_dims)).sum ≠ t.length) :
    get_bijector ps t fts n_dims = Except.error BuildError.paramSizeMismatch := by
  have hrev : ¬ ((fts.reverse.map (fun f => ps f n_dims)).sum = t.length) := by
    rw [List.map_reverse, List.sum_reverse]
    exact h
  unfold get_bijector
  rw [if_neg hrev]

/-- mkChain distributes over list append, shifting the offset of the second
part by the total size of the first. -/
theorem mkChain_append {α : Type} (ps : α → Nat → Nat) (n_dims : Nat)
    (t : List ℝ) (l1 l2 : List α) : ∀ off : Nat,
    mkChain ps n_dims t (l1 ++ l2) off
      = mkChain ps n_dims t l1 off
          ++ mkChain ps n_dims t l2 (off + (l1.map (fun f => ps f n_dims)).sum) := by
  induction l1 with
  | nil => intro off; simp [mkChain]
  | cons f rest ih =>
      intro off
      rw [List.cons_append]
      simp only [mkChain, List.map_cons, List.sum_cons]
      rw [ih (off + ps f n_dims), Nat.add_assoc, List.cons_append]

/-- Forward evaluation of a concatenated chain runs the second part first. -/
theorem chainForward_append {α X : Type} (F : α → List ℝ → X → X)
    (c1 c2 : List (Bij α)) (x : X) :
    chainForward F (c1 ++ c2) x = chainForward F c1 (chainForward F c2 x) := by
  simp [chainForward, List.foldr_append]

/-- Forward evaluation of the chain built over the reversed flow list equals
application of the flows in the original user order, each at its slice. -/
theorem chainForward_mkChain_reverse {α X : Type} (F : α → List ℝ → X → X)
    (ps : α → Nat → Nat) (n_dims : Nat) (t : List ℝ) :
    ∀ (fts : List α) (x : X),
      chainForward F (mkChain ps n_dims t fts.reverse 0) x
        = applyFlows F ps n_dims t fts x := by
  intro fts
  induction fts with
  | nil => intro x; rfl
  | cons f rest ih =>
      intro x
      rw [List.reverse_cons, mkChain_append, chainForward_append]
      have hsingle : chainForward F
          (mkChain ps n_dims t [f] (0 + (rest.reverse.map (fun g => ps g n_dims)).sum)) x
          = F f (sliceT t ((rest.map (fun g => ps g n_dims)).sum) (ps f n_dims)) x := by
        simp [mkChain, chainForward, List.map_reverse, List.sum_reverse]
      rw [hsingle, applyFlows]
      exact ih _

/-
Claim theorems.
-/

/-- Claim C1: for every non-empty flow list whose total registered parameter
size matches the tensor, get_bijector reverses the flow list, gives each
flow the slice at its exclusive-prefix-sum offset in that reversed order,
and the forward application order of the resulting chain to a base sample
equals the original user-specified flow order. -/
theorem c1_get_bijector_reversed_slices_user_order {α X : Type}
    (ps : α → Nat → Nat) (F : α → List ℝ → X → X) (t : List ℝ)
    (fts : List α) (n_dims : Nat) (hne : fts ≠ [])
    (hlen : (fts.map (fun f => ps f n_dims)).sum = t.length) :
    get_bijector ps t fts n_dims
        = Except.ok (mkChain ps n_dims t fts.reverse 0) ∧
    ∀ x : X, chainForward F (mkChain ps n_dims t fts.reverse 0) x
        = applyFlows F ps n_dims t fts x := by
  refine ⟨get_bijector_ok ps t fts n_dims hlen, fun x => ?_⟩
  exact chainForward_mkChain_reverse F ps n_dims t fts x

/-- Witness for claim C1 at a concrete registry, tensor and flow list. -/
theorem c1_witness :
    (get_bijector (fun (f : Nat) (_ : Nat) => f) [(1:ℝ), 2, 3] [1, 2] 1
        = Except.ok (mkChain (fun (f : Nat) (_ : Nat) => f) 1 [(1:ℝ), 2, 3]
            ([1, 2] : List Nat).reverse 0)) ∧
    ∀ x : Nat,
      chainForward (fun (_ : Nat) (p : List ℝ) (v : Nat) => v + p.length)
          (mkChain (fun (f : Nat) (_ : Nat) => f) 1 [(1:ℝ), 2, 3]
            ([1, 2] : List Nat).reverse 0) x
        = applyFlows (fun (_ : Nat) (p : List ℝ) (v : Nat) => v + p.length)
            (fun (f : Nat) (_ : Nat) => f) 1 [(1:ℝ), 2, 3] [1, 2] x :=
  c1_get_bijector_reversed_slices_user_order
    (fun (f : Nat) (_ : Nat) => f) (fun (_ : Nat) (p : List ℝ) (v : Nat) => v + p.length)
    [(1:ℝ), 2, 3] [1, 2] 1 (by decide) (by rfl)

/-- Claim C2: the total parameter size is the sum of the registered per-flow
sizes plus 2 * n_dims exactly when the base distribution is trainable. -/
theorem c2_get_total_param_size {α : Type} (ps : α → Nat → Nat)
    (flow_types : List α) (n_dims : Nat) :
    get_total_param_size ps flow_types n_dims true
        = (flow_types.map (fun f => ps f n_dims)).sum + 2 * n_dims ∧
    get_total_param_size ps flow_types n_dims false
        = (flow_types.map (fun f => ps f n_dims)).sum := by
  constructor <;> simp [get_total_param_size]

/-- Claim C3: a parameter tensor whose trailing size, after removing the
leading 2 * n_dims entries when the base is trainable, differs from the
total registered flow size makes the distribution construction fail with
the parameter-size mismatch error before any bijector is built. -/
theorem c3_wrong_size_fails {α : Type} (ps : α → Nat → Nat) (fts : List α)
    (n_dims : Nat) (trainable : Bool) (t : List ℝ)
    (hmis : (fts.map (fun f => ps f n_dims)).sum
        ≠ (if trainable then t.length - 2 * n_dims else t.length)) :
    make_flow_dist ps fts n_dims trainable t
      = Except.error BuildError.paramSizeMismatch := by
  have hlen : (if trainable then t.drop (2 * n_dims) else t).length
      = (if trainable then t.length - 2 * n_dims else t.length) := by
    cases trainable <;> simp
  have herr := get_bijector_error ps
    (if trainable then t.drop (2 * n_dims) else t) fts n_dims
    (by rw [hlen]; exact hmis)
  unfold make_flow_dist
  rw [herr]

/-- Witness for claim C3: one radial-size flow against a three-entry tensor
with a trainable base leaves one entry for a two-parameter flow. -/
theorem c3_witness :
    make_flow_dist (fun (f : Nat) (_ : Nat) => f) [2] 1 true [(1:ℝ), 2, 3]
      = Except.error BuildError.paramSizeMismatch :=
  c3_wrong_size_fails (fun (f : Nat) (_ : Nat) => f) [2] 1 true [(1:ℝ), 2, 3]
    (by decide)

/-- Claim C4 (code bug): with the trainable flag off and n_dims = 2, the base
distribution built by _get_base_dist has a single zero-mean unit-scale
component, not the two components the documentation describes, because the
zeros take the shape of t[..., 0:1]. -/
theorem c4_nontrainable_base_is_one_dimensional :
    (get_base_dist [(5:ℝ), 7, 9] 2 false).loc = [0] ∧
    (get_base_dist [(5:ℝ), 7, 9] 2 false).scale_diag = [1] ∧
    (get_base_dist [(5:ℝ), 7, 9] 2 false).loc.length = 1 ∧
    (get_base_dist [(5:ℝ), 7, 9] 2 false).loc.length ≠ 2 :=
  ⟨rfl, rfl, rfl, by decide⟩

/-- Claim C5 (code bug): for every kernel and bias size, both variational
weight factories fail with a TypeError because they pass the keyword scale,
which MeanFieldLayer.__init__ does not accept, so neither returns a usable
distribution-producing layer. -/
theorem c5_factories_raise_type_error (trainable : Bool)
    (kernel_size bias_size : Nat) :
    prior_fn trainable kernel_size bias_size
        = Except.error (PyError.typeErrorUnexpectedKeyword ("scale")) ∧
    posterior_fn kernel_size bias_size
        = Except.error (PyError.typeErrorUnexpectedKeyword ("scale")) := by
  constructor <;> rfl

/-- Claim C6: with uniform scale the mean-field layer takes the first n_dims
entries as means and fixes every scale at 1.0, ignoring all further tensor
entries, with total parameter size n_dims; otherwise the scales come from
the next n_dims entries through 1e-5 + softplus(log(expm1(1.0)) + raw) and
the total parameter size is 2 * n_dims. -/
theorem c6_mean_field_scales (n_dims : Nat) (t extra : List ℝ)
    (h : n_dims ≤ t.length) :
    (mean_field_dist_fn n_dims true t).loc = t.take n_dims ∧
    (∀ s ∈ (mean_field_dist_fn n_dims true t).scale, s = 1) ∧
    mean_field_dist_fn n_dims true (t ++ extra) = mean_field_dist_fn n_dims true t ∧
    mean_field_total_param_size n_dims true = n_dims ∧
    (mean_field_dist_fn n_dims false t).scale
      = (sliceT t n_dims n_dims).map
          (fun r => 1e-5 + softplus (Real.log (Real.exp 1 - 1) + r)) ∧
    mean_field_total_param_size n_dims false = 2 * n_dims := by
  refine ⟨by simp [mean_field_dist_fn, sliceT], ?_, ?_, rfl, rfl, rfl⟩
  · intro s hs
    simp only [mean_field_dist_fn, if_true, reduceIte] at hs
    rcases List.mem_map.mp hs with ⟨a, _, ha⟩
    exact ha.symm
  · have htake : (t ++ extra).take n_dims = t.take n_dims :=
      List.take_append_of_le_length h
    simp [mean_field_dist_fn, sliceT, htake]

/-- Witness for claim C6 at n_dims = 1 with a two-entry tensor and one extra
entry. -/
theorem c6_witness :
    (mean_field_dist_fn 1 true [(2:ℝ), 3]).loc = ([(2:ℝ), 3]).take 1 ∧
    (∀ s ∈ (mean_field_dist_fn 1 true [(2:ℝ), 3]).scale, s = 1) ∧
    mean_field_dist_fn 1 true ([(2:ℝ), 3] ++ [9]) = mean_field_dist_fn 1 true [(2:ℝ), 3] ∧
    mean_field_total_param_size 1 true = 1 ∧
    (mean_field_dist_fn 1 false [(2:ℝ), 3]).scale
      = (sliceT [(2:ℝ), 3] 1 1).map
          (fun r => 1e-5 + softplus (Real.log (Real.exp 1 - 1) + r)) ∧
    mean_field_total_param_size 1 false = 2 * 1 :=
  c6_mean_field_scales 1 [(2:ℝ), 3] [9] (by decide)

/-- Claim C7: without training the loss is a function of the target and the
distribution only, so two evaluations agree; during training with a nonzero
output-noise stddev two evaluations with different fresh draws can differ. -/
theorem c7_loss_determinism :
    (∀ (std : ℚ) (log_prob : List ℝ → ℝ) (y n1 n2 : List ℝ),
        get_neg_log_likelihood std log_prob false n1 y
          = get_neg_log_likelihood std log_prob false n2 y) ∧
    (∃ (std : ℚ) (log_prob : List ℝ → ℝ) (y n1 n2 : List ℝ),
        std ≠ 0 ∧
        get_neg_log_likelihood std log_prob true n1 y
          ≠ get_neg_log_likelihood std log_prob true n2 y) := by
  constructor
  · intro std log_prob y n1 n2
    by_cases h : std = 0 <;>
      simp [get_neg_log_likelihood, gaussianNoiseLayer, h]
  · refine ⟨1, fun l => l.sum, [0], [0], [1], by norm_num, ?_⟩
    simp [get_neg_log_likelihood, gaussianNoiseLayer]

/-- Claim C8 counterexample: construction with a negative output-noise
stddev succeeds, because only the input-noise stddev is checked. -/
theorem c8_negative_output_noise_not_rejected :
    bayesianNFEstimator_initChecks true 1 0 (-1) = Except.ok () := by
  simp [bayesianNFEstimator_initChecks, get_dense_layers_checks]

/-- Claim C8 (amended): construction fails eagerly exactly when the
hidden-size spec is not a tuple, kl_weight_scale exceeds 1.0, or the
input-noise stddev is negative; the output-noise stddev is never checked. -/
theorem c8_init_checks_characterization (ht : Bool) (kl x y : ℚ) :
    bayesianNFEstimator_initChecks ht kl x y = Except.ok ()
      ↔ (ht = true ∧ kl ≤ 1 ∧ 0 ≤ x) := by
  cases ht with
  | false => simp [bayesianNFEstimator_initChecks, get_dense_layers_checks]
  | true =>
      unfold bayesianNFEstimator_initChecks get_dense_layers_checks
      rw [if_neg (by simp : ¬ (true = false))]
      by_cases h1 : 1 < kl
      · rw [if_pos h1]
        simp [not_le.mpr h1]
      · rw [if_neg h1]
        by_cases h2 : x < 0
        · rw [if_pos h2]
          simp [not_le.mpr h2]
        · rw [if_neg h2]
          simp [not_lt.mp h1, not_lt.mp h2]

/-- Claim C9: an empty flow list with a trainable base and a 2 * n_dims
parameter tensor builds the transformed distribution whose base is the
trainable Gaussian and whose chain is empty, and the empty chain is the
identity transform. -/
theorem c9_empty_flow_list_is_base {α X : Type} (ps : α → Nat → Nat)
    (F : α → List ℝ → X → X) (n_dims : Nat) (t : List ℝ)
    (hlen : t.length = 2 * n_dims) :
    make_flow_dist ps [] n_dims true t
        = Except.ok { distribution := get_base_dist t n_dims true,
                      bijector := [] } ∧
    ∀ x : X, chainForward F ([] : List (Bij α)) x = x := by
  refine ⟨?_, fun x => rfl⟩
  have hok := get_bijector_ok ps (t.drop (2 * n_dims)) ([] : List α) n_dims
    (by simp [hlen])
  unfold make_flow_dist
  have hif : (if (true : Bool) = true then List.drop (2 * n_dims) t else t)
      = List.drop (2 * n_dims) t := rfl
  rw [hif, hok]
  rfl

/-- Witness for claim C9 at n_dims = 1 with a two-entry tensor. -/
theorem c9_witness :
    make_flow_dist (fun (f : Nat) (_ : Nat) => f) ([] : List Nat) 1 true [(1:ℝ), 2]
        = Except.ok { distribution := get_base_dist [(1:ℝ), 2] 1 true,
                      bijector := [] } ∧
    ∀ x : Nat, chainForward (fun (_ : Nat) (_ : List ℝ) (v : Nat) => v)
        ([] : List (Bij Nat)) x = x :=
  c9_empty_flow_list_is_base (fun (f : Nat) (_ : Nat) => f)
    (fun (_ : Nat) (_ : List ℝ) (v : Nat) => v) 1 [(1:ℝ), 2] (by decide)

/-- Claim C10: the trainable base scale is softplus(0.05 * raw) on the raw
entries, hence strictly positive everywhere, and a raw value of 0 gives
softplus(0) = log 2, which lies strictly between 0.69 and 0.7 and is not 1. -/
theorem c10_trainable_scale_softplus (t : List ℝ) (n_dims : Nat) :
    (get_base_dist t n_dims true).scale_diag
        = (sliceT t n_dims n_dims).map (fun r => softplus (0.05 * r)) ∧
    (∀ s ∈ (get_base_dist t n_dims true).scale_diag, 0 < s) ∧
    softplus 0 = Real.log 2 ∧
    0.69 < softplus 0 ∧ softplus 0 < 0.7 ∧ softplus 0 ≠ 1 := by
  have hpos : ∀ x : ℝ, 0 < softplus x := by
    intro x
    have hx : (1:ℝ) < 1 + Real.exp x := by
      have := Real.exp_pos x
      linarith
    exact Real.log_pos hx
  have h0 : softplus 0 = Real.log 2 := by
    unfold softplus
    rw [Real.exp_zero]
    norm_num
  have hgt : (0.69:ℝ) < softplus 0 := by
    rw [h0]
    have := Real.log_two_gt_d9
    norm_num at this ⊢
    linarith
  have hlt : softplus 0 < (0.7:ℝ) := by
    rw [h0]
    have := Real.log_two_lt_d9
    norm_num at this ⊢
    linarith
  refine ⟨rfl, ?_, h0, hgt, hlt, ?_⟩
  · intro s hs
    simp only [get_base_dist, reduceIte] at hs
    rcases List.mem_map.mp hs with ⟨r, _, hr⟩
    rw [← hr]
    exact hpos _
  · intro h1
    rw [h1] at hlt
    norm_num at hlt
